import Mathlib

/- Verification development for the subdomain enumeration pipeline (main.py):
   tool registry, availability gate, task runner, phased scheduling,
   result collection with deduplication, and output writing.

   External effects (executable lookup on PATH, subprocess execution) are
   modelled by an explicit environment `Env`; the functions below mirror the
   Python source line by line. -/

namespace SubEnum

/-! ### String helpers mirroring the Python builtins used by the source -/

/-- Python `str.strip()`: drop leading and trailing whitespace characters. -/
def strip (s : String) : String :=
  String.mk (((s.data.dropWhile Char.isWhitespace).reverse.dropWhile
    Char.isWhitespace).reverse)

/-- Helper for `splitlines`: walks the character list, accumulating the current
line in reverse. -/
def splitLinesAux : List Char → List Char → List String
  | [], acc => [String.mk acc.reverse]
  | c :: cs, acc =>
    if c = '\n' then String.mk acc.reverse :: splitLinesAux cs []
    else splitLinesAux cs (c :: acc)

/-- Python `str.splitlines()` restricted to the newline terminator `\n`.
A trailing terminator yields a final empty chunk, which the collector's
empty-line filter discards, so the difference from CPython's behaviour
(no trailing empty chunk, extra terminator characters) is invisible to the
result set: stray `\r` from `\r\n` terminators is removed by `strip`. -/
def splitlines (s : String) : List String := splitLinesAux s.data []

/-- Helper for `tokens`: Python `str.split()` with no separator argument,
splitting on runs of whitespace and producing no empty fields. -/
def wordsAux : List Char → List Char → List String
  | [], acc => if acc.isEmpty then [] else [String.mk acc.reverse]
  | c :: cs, acc =>
    if c.isWhitespace then
      if acc.isEmpty then wordsAux cs [] else String.mk acc.reverse :: wordsAux cs []
    else wordsAux cs (c :: acc)

/-- Python `cmd.split()`: the whitespace-delimited tokens of a command string. -/
def tokens (cmd : String) : List String := wordsAux cmd.data []

/-! ### External-world model -/

/-- Result of one subprocess invocation (`subprocess.check_output` with a
180-second timeout): captured stdout text, timeout expiry
(`subprocess.TimeoutExpired`), or any other invocation error such as a
non-zero exit status (`subprocess.CalledProcessError`) or spawn failure. -/
inductive ExecResult where
  | success (out : String)
  | timeout
  | failure (msg : String)
  deriving DecidableEq

/-- The execution environment: `which` models `shutil.which` (is the named
executable resolvable on the search path?), `exec` models running a command
line with `subprocess.check_output`. -/
structure Env where
  which : String → Bool
  exec : String → ExecResult

/-- Terminal classification of one task, per the spec's TaskOutcome. -/
inductive Status where
  | ok
  | not_found
  | timed_out
  | failed
  deriving DecidableEq

/-- The TaskOutcome record of the spec's data model (elapsed time omitted:
wall-clock time is not modelled). -/
structure TaskOutcome where
  name : String
  status : Status
  output : Option String
  error_detail : Option String
  deriving DecidableEq

/-! ### Task runner (`run_tool`, main.py lines 50-67) -/

/-- `run_tool(name, cmd, output_q)`. The returned value is
`some (outcome, enqueued)` where `enqueued` is the `(name, result)` pair the
function puts on the shared output queue (`none` when nothing is enqueued);
the overall `none` models an uncaught exception escaping the function, which
happens exactly when `cmd.split()[0]` (evaluated outside the try block)
raises `IndexError` because the command has no tokens. -/
def run_tool (env : Env) (name cmd : String) :
    Option (TaskOutcome × Option (String × String)) :=
  match tokens cmd with
  | [] => none
  | t :: _ =>
    if env.which t = false then
      some ({ name := name, status := Status.not_found, output := none,
              error_detail := none }, none)
    else
      match env.exec cmd with
      | ExecResult.success out =>
          some ({ name := name, status := Status.ok, output := some out,
                  error_detail := none }, some (name, out))
      | ExecResult.timeout =>
          some ({ name := name, status := Status.timed_out, output := none,
                  error_detail := none }, none)
      | ExecResult.failure msg =>
          some ({ name := name, status := Status.failed, output := none,
                  error_detail := some msg }, none)

/-- The availability gate of `run_tool` line 54 in isolation:
`shutil.which(cmd.split()[0]) is not None`. `none` models the uncaught
`IndexError` raised by `cmd.split()[0]` on a token-less command string. -/
def availability_gate (env : Env) (cmd : String) : Option Bool :=
  match tokens cmd with
  | [] => none
  | t :: _ => some (env.which t)

/-! ### Tool registry and ETA estimator (main.py lines 36-48, 69-70, 84-100) -/

/-- The static estimate table `TOOL_ESTIMATES`. -/
def TOOL_ESTIMATES : List (String × Nat) :=
  [("assetfinder", 5), ("subfinder", 7), ("findomain", 5), ("theHarvester", 10),
   ("amass", 15), ("sublist3r", 10), ("dnsrecon", 25), ("dnsenum", 30),
   ("fierce", 30), ("gobuster", 35), ("massdns", 40)]

/-- `estimate_total_time(tool_list)`:
`sum(TOOL_ESTIMATES.get(tool[0], 10) for tool in tool_list)`. -/
def estimate_total_time (tool_list : List (String × String)) : Nat :=
  (tool_list.map (fun t => (TOOL_ESTIMATES.lookup t.1).getD 10)).sum

/-- The `all_tools` list of main.py with the domain interpolated as in the
f-strings. -/
def all_tools (domain : String) : List (String × String) :=
  [("assetfinder", "assetfinder --subs-only " ++ domain),
   ("subfinder", "subfinder -d " ++ domain),
   ("findomain", "findomain -t " ++ domain ++ " -u -"),
   ("theHarvester", "theHarvester -d " ++ domain ++ " -b all"),
   ("amass", "amass enum -passive -d " ++ domain),
   ("sublist3r", "python3 /usr/local/bin/sublist3r -d " ++ domain),
   ("dnsrecon", "dnsrecon -d " ++ domain),
   ("dnsenum", "dnsenum " ++ domain),
   ("fierce", "fierce --domain " ++ domain),
   ("gobuster", "gobuster dns -d " ++ domain ++
      " -w /usr/share/wordlists/dirb/common.txt -q"),
   ("massdns", "massdns -r /etc/resolv.conf -t A -o S -w massdns.txt " ++ domain)]

/-- The names classified as fast-phase tools. -/
def fast_tools : List String :=
  ["assetfinder", "subfinder", "findomain", "theHarvester", "amass", "sublist3r"]

/-- `fast_phase = [t for t in all_tools if t[0] in fast_tools]`. -/
def fast_phase (domain : String) : List (String × String) :=
  (all_tools domain).filter (fun t => fast_tools.contains t.1)

/-- `slow_phase = [t for t in all_tools if t[0] not in fast_tools]`. -/
def slow_phase (domain : String) : List (String × String) :=
  (all_tools domain).filter (fun t => !fast_tools.contains t.1)

/-! ### Result collector and deduplicator (main.py lines 115-121) -/

/-- The lines of one captured output that survive the collector's filter:
each raw line is stripped, and kept only when non-empty and containing the
target domain as a literal (case-sensitive) substring — `line and
args.domain in line`. -/
def matchingLines (domain output : String) : List String :=
  ((splitlines output).map strip).filter
    (fun l => !(l == "") && decide (domain.data <:+: l.data))

/-- `all_results`: the Python set built by draining the output queue; entries
are the `(name, output)` pairs collected from the queue. -/
def resultSet (domain : String) (entries : List (String × String)) :
    Finset String :=
  entries.foldl
    (fun acc e => (matchingLines domain e.2).foldl (fun a l => insert l a) acc) ∅

/-- `sorted(all_results)`: the unique results in ascending lexicographic
order. -/
def sortedResults (rs : Finset String) : List String := rs.sort (· ≤ ·)

/-- The text written to the output file: each sorted unique result followed
by a newline (`f.write(subdomain + "\n")`). -/
def fileContent (rs : Finset String) : String :=
  String.join ((sortedResults rs).map (fun l => l ++ "\n"))

/-! ### Phase execution model (main.py lines 105-121) -/

/-- One phase's task runs in registry order: each tool is run with
`run_tool`; a run is dropped only on the (never reached for registry
commands) uncaught-exception case. -/
def run_phase (env : Env) (tools : List (String × String)) :
    List (TaskOutcome × Option (String × String)) :=
  tools.filterMap (fun t => run_tool env t.1 t.2)

/-- All task runs of a full invocation of `main`: the fast phase followed by
the slow phase. -/
def mainRuns (env : Env) (domain : String) :
    List (TaskOutcome × Option (String × String)) :=
  run_phase env (fast_phase domain) ++ run_phase env (slow_phase domain)

/-- The contents of the shared output queue: the pairs enqueued by the runs.
Queue arrival order is completion order; any permutation of this list is a
possible drain order (determinism of the final set under permutations is
proved separately). -/
def queueEntries (runs : List (TaskOutcome × Option (String × String))) :
    List (String × String) :=
  runs.filterMap (fun r => r.2)

/-- The finalized ResultSet of a full run. -/
def finalResults (env : Env) (domain : String) : Finset String :=
  resultSet domain (queueEntries (mainRuns env domain))

/-! ### Output writer (main.py lines 124-128) -/

/-- Characters strictly before the last `/` of a path, or `none` when the
path has no `/`. -/
def dirChars : List Char → Option (List Char)
  | [] => none
  | c :: rest =>
    match dirChars rest with
    | some d => some (c :: d)
    | none => if c == '/' then some [] else none

/-- Python `os.path.dirname` for POSIX paths: the prefix up to (and
including) the last `/`, with trailing slashes stripped unless the prefix
consists only of slashes; `""` when the path has no `/`. -/
def dirname (p : String) : String :=
  match dirChars p.data with
  | none => ""
  | some d =>
    let head := d ++ ['/']
    if head.all (· == '/') then String.mk head
    else String.mk ((head.reverse.dropWhile (· == '/')).reverse)

/-- Python `os.makedirs(d, exist_ok=True)`: raises `FileNotFoundError` on the
empty path (even with `exist_ok=True`, since the empty name is not
creatable); otherwise creates the directory tree and succeeds, idempotently. -/
def os_makedirs (d : String) : Except String Unit :=
  if d = "" then Except.error "FileNotFoundError" else Except.ok ()

/-- Lines 124-128 of `main`: ensure the output directory exists, then open
the file in mode `"w"` (truncating any existing file) and write the sorted
unique results. The filesystem is a map from path to file contents. -/
def write_output (fs : String → Option String) (path : String)
    (rs : Finset String) : Except String (String → Option String) :=
  match os_makedirs (dirname path) with
  | Except.error e => Except.error e
  | Except.ok _ =>
      Except.ok (fun p => if p = path then some (fileContent rs) else fs p)

/-! ### Phase-ordering event model (main.py lines 105-113)

The two `ThreadPoolExecutor` blocks are each followed by
`concurrent.futures.wait`, a full barrier: every observable event of the
fast phase precedes every event of the slow phase, while events inside one
phase may interleave arbitrarily. An execution trace is therefore any
fast-phase trace followed by any slow-phase trace. -/

/-- An observable scheduling event: a task starting or reaching its terminal
outcome. -/
inductive Ev where
  | start (n : String)
  | finish (n : String)
  deriving DecidableEq

/-- The task name an event belongs to. -/
def evName : Ev → String
  | Ev.start n => n
  | Ev.finish n => n

/-- The names of the fast-phase tools of a run. -/
def fastNames (domain : String) : List String :=
  (fast_phase domain).map (fun t => t.1)

/-- The names of the slow-phase tools of a run. -/
def slowNames (domain : String) : List String :=
  (slow_phase domain).map (fun t => t.1)

/-- A possible event trace of one phase executed to its completion barrier:
every event belongs to a task of the phase, and every task of the phase
reaches a terminal outcome inside the trace. -/
structure PhaseExec (names : List String) (evts : List Ev) : Prop where
  own : ∀ e ∈ evts, evName e ∈ names
  complete : ∀ n ∈ names, Ev.finish n ∈ evts

/-- A possible event trace of a full `main` run: some fast-phase trace
followed (after the `concurrent.futures.wait` barrier) by some slow-phase
trace. -/
def MainExec (domain : String) (tr : List Ev) : Prop :=
  ∃ fe se, PhaseExec (fastNames domain) fe ∧ PhaseExec (slowNames domain) se ∧
    tr = fe ++ se

/-! ### Concrete environments and traces used to instantiate the theorems -/

/-- An environment where every executable resolves and every command succeeds
with the single output line `www.example.com`. -/
def envAll : Env :=
  { which := fun _ => true,
    exec := fun _ => ExecResult.success "www.example.com\n" }

/-- An environment where no executable resolves (every availability probe
fails); the subprocess behaviour is irrelevant and set to time out. -/
def envNone : Env :=
  { which := fun _ => false, exec := fun _ => ExecResult.timeout }

/-- A concrete fast-phase trace: every fast tool finishes. -/
def wTraceFast : List Ev := (fastNames "example.com").map Ev.finish

/-- A concrete slow-phase trace: `dnsrecon` starts, then every slow tool
finishes. -/
def wTraceSlow : List Ev :=
  Ev.start "dnsrecon" :: (slowNames "example.com").map Ev.finish

/-! ### Helper lemmas: the collector as a set of matching lines -/

theorem foldl_insert_eq (ls : List String) (acc : Finset String) :
    ls.foldl (fun a l => insert l a) acc = acc ∪ ls.toFinset := by
  induction ls generalizing acc with
  | nil => simp
  | cons x xs ih =>
    simp [List.foldl_cons, ih, List.toFinset_cons, Finset.union_insert,
      Finset.insert_union]

theorem resultSet_foldl (domain : String) (entries : List (String × String))
    (acc : Finset String) :
    entries.foldl
        (fun acc e => (matchingLines domain e.2).foldl (fun a l => insert l a) acc)
        acc =
      acc ∪ (List.flatten (entries.map (fun e => matchingLines domain e.2))).toFinset := by
  induction entries generalizing acc with
  | nil => simp
  | cons e es ih =>
    rw [List.foldl_cons, ih, foldl_insert_eq]
    simp [List.toFinset_append, Finset.union_assoc]

theorem resultSet_eq_toFinset (domain : String) (entries : List (String × String)) :
    resultSet domain entries =
      (List.flatten (entries.map (fun e => matchingLines domain e.2))).toFinset := by
  simpa [resultSet] using resultSet_foldl domain entries ∅

theorem mem_resultSet {domain s : String} {entries : List (String × String)} :
    s ∈ resultSet domain entries ↔ ∃ e ∈ entries, s ∈ matchingLines domain e.2 := by
  rw [resultSet_eq_toFinset]
  simp only [List.mem_toFinset, List.mem_flatten, List.mem_map]
  constructor
  · rintro ⟨l, ⟨e, he, rfl⟩, hs⟩
    exact ⟨e, he, hs⟩
  · rintro ⟨e, he, hs⟩
    exact ⟨_, ⟨e, he, rfl⟩, hs⟩

theorem mem_matchingLines {domain out s : String} :
    s ∈ matchingLines domain out ↔
      (∃ raw ∈ splitlines out, strip raw = s) ∧ s ≠ "" ∧ domain.data <:+: s.data := by
  simp only [matchingLines, List.mem_filter, List.mem_map, Bool.and_eq_true,
    Bool.not_eq_true', beq_eq_false_iff_ne, decide_eq_true_eq, ne_eq]

theorem ne_empty_of_mem_resultSet {domain s : String}
    {entries : List (String × String)} (h : s ∈ resultSet domain entries) :
    s ≠ "" := by
  obtain ⟨e, _, hm⟩ := mem_resultSet.mp h
  exact (mem_matchingLines.mp hm).2.1

/-! ### Helper lemmas: the task runner's case structure -/

theorem run_tool_of_tokens (env : Env) (name cmd t : String) (ts : List String)
    (h : tokens cmd = t :: ts) :
    run_tool env name cmd =
      (if env.which t = false then
        some ({ name := name, status := Status.not_found, output := none,
                error_detail := none }, none)
      else
        match env.exec cmd with
        | ExecResult.success out =>
            some ({ name := name, status := Status.ok, output := some out,
                    error_detail := none }, some (name, out))
        | ExecResult.timeout =>
            some ({ name := name, status := Status.timed_out, output := none,
                    error_detail := none }, none)
        | ExecResult.failure msg =>
            some ({ name := name, status := Status.failed, output := none,
                    error_detail := some msg }, none)) := by
  unfold run_tool
  rw [h]

theorem run_tool_shape {env : Env} {name cmd : String}
    {r : TaskOutcome × Option (String × String)}
    (h : run_tool env name cmd = some r) :
    ∃ t ts, tokens cmd = t :: ts ∧
      ((env.which t = false ∧
          r = ({ name := name, status := Status.not_found, output := none,
                 error_detail := none }, none)) ∨
       (env.which t = true ∧ ∃ out, env.exec cmd = ExecResult.success out ∧
          r = ({ name := name, status := Status.ok, output := some out,
                 error_detail := none }, some (name, out))) ∨
       (env.which t = true ∧ env.exec cmd = ExecResult.timeout ∧
          r = ({ name := name, status := Status.timed_out, output := none,
                 error_detail := none }, none)) ∨
       (env.which t = true ∧ ∃ msg, env.exec cmd = ExecResult.failure msg ∧
          r = ({ name := name, status := Status.failed, output := none,
                 error_detail := some msg }, none))) := by
  rcases htk : tokens cmd with _ | ⟨t, ts⟩
  · rw [run_tool, htk] at h
    exact absurd h (by simp)
  · rw [run_tool_of_tokens env name cmd t ts htk] at h
    refine ⟨t, ts, rfl, ?_⟩
    by_cases hw : env.which t = false
    · rw [if_pos hw] at h
      exact Or.inl ⟨hw, (Option.some.inj h).symm⟩
    · rw [if_neg hw] at h
      rcases hx : env.exec cmd with out | _ | msg <;> rw [hx] at h
      · exact Or.inr (Or.inl ⟨eq_true_of_ne_false hw, out, rfl,
          (Option.some.inj h).symm⟩)
      · exact Or.inr (Or.inr (Or.inl ⟨eq_true_of_ne_false hw, rfl,
          (Option.some.inj h).symm⟩))
      · exact Or.inr (Or.inr (Or.inr ⟨eq_true_of_ne_false hw, msg, rfl,
          (Option.some.inj h).symm⟩))

theorem tokens_all_tools {domain name cmd : String}
    (h : (name, cmd) ∈ all_tools domain) : tokens cmd ≠ [] := by
  simp only [all_tools, List.mem_cons, Prod.mk.injEq, List.not_mem_nil,
    or_false] at h
  cases domain with
  | mk l =>
    rcases h with ⟨_, rfl⟩ | ⟨_, rfl⟩ | ⟨_, rfl⟩ | ⟨_, rfl⟩ | ⟨_, rfl⟩ | ⟨_, rfl⟩ |
      ⟨_, rfl⟩ | ⟨_, rfl⟩ | ⟨_, rfl⟩ | ⟨_, rfl⟩ | ⟨_, rfl⟩ <;>
      simp [tokens, wordsAux]

/-! ### Helper lemmas: membership in a phase's runs -/

theorem mem_run_phase {env : Env} {tools : List (String × String)}
    {r : TaskOutcome × Option (String × String)} (h : r ∈ run_phase env tools) :
    ∃ t ∈ tools, run_tool env t.1 t.2 = some r := by
  simpa [run_phase, List.mem_filterMap] using h

theorem mem_mainRuns {env : Env} {domain : String}
    {r : TaskOutcome × Option (String × String)} (h : r ∈ mainRuns env domain) :
    ∃ t, (t ∈ fast_phase domain ∨ t ∈ slow_phase domain) ∧
      run_tool env t.1 t.2 = some r := by
  rcases List.mem_append.mp h with h2 | h2
  · obtain ⟨t, ht, hr⟩ := mem_run_phase h2
    exact ⟨t, Or.inl ht, hr⟩
  · obtain ⟨t, ht, hr⟩ := mem_run_phase h2
    exact ⟨t, Or.inr ht, hr⟩

theorem run_tool_snd_some {env : Env} {name cmd : String} {o : TaskOutcome}
    {q : Option (String × String)} {p : String × String}
    (h : run_tool env name cmd = some (o, q)) (hq : q = some p) :
    o.status = Status.ok ∧ o.output = some p.2 := by
  obtain ⟨t, ts, -, hc⟩ := run_tool_shape h
  subst hq
  rcases hc with ⟨-, he⟩ | ⟨-, out, -, he⟩ | ⟨-, -, he⟩ | ⟨-, msg, -, he⟩ <;>
    injection he with h1 h2 <;> subst h1 <;> simp_all

theorem mainRuns_not_ok {env : Env} {domain : String} :
    ∀ r ∈ mainRuns env domain, r.1.status ≠ Status.ok → r.2 = none := by
  intro r hr hs
  obtain ⟨t, -, hrt⟩ := mem_mainRuns hr
  obtain ⟨o, q⟩ := r
  obtain ⟨t2, ts, -, hc⟩ := run_tool_shape hrt
  rcases hc with ⟨-, he⟩ | ⟨-, out, -, he⟩ | ⟨-, -, he⟩ | ⟨-, msg, -, he⟩ <;>
    injection he with h1 h2 <;> subst h1 <;> simp_all

theorem queueEntries_filter_ok
    (runs : List (TaskOutcome × Option (String × String)))
    (hall : ∀ r ∈ runs, r.1.status ≠ Status.ok → r.2 = none) :
    queueEntries runs =
      queueEntries (runs.filter (fun r => r.1.status == Status.ok)) := by
  induction runs with
  | nil => rfl
  | cons r rs ih =>
    have ih2 := ih (fun x hx hs => hall x (List.mem_cons_of_mem _ hx) hs)
    by_cases hs : r.1.status = Status.ok
    · simp [queueEntries, List.filter_cons, hs, List.filterMap_cons] at *
      rw [ih2]
    · have h2 : r.2 = none := hall r (List.mem_cons_self r rs) hs
      simp [queueEntries, List.filter_cons, hs, h2, List.filterMap_cons] at *
      rw [ih2]

/-! ### Helper lemmas: phases, paths, estimate table -/

theorem fast_slow_disjoint {domain n : String} (hs : n ∈ slowNames domain) :
    n ∉ fastNames domain := by
  intro hf
  obtain ⟨t1, ht1, he1⟩ := List.mem_map.mp hf
  obtain ⟨t2, ht2, he2⟩ := List.mem_map.mp hs
  have h1 := (List.mem_filter.mp ht1).2
  have h2 := (List.mem_filter.mp ht2).2
  rw [he1] at h1
  rw [he2] at h2
  simp_all

theorem lookup_eq_none {l : List (String × Nat)} {name : String}
    (h : ∀ p ∈ l, p.1 ≠ name) : l.lookup name = none := by
  induction l with
  | nil => rfl
  | cons p ps ih =>
    obtain ⟨k, v⟩ := p
    have hk : k ≠ name := h (k, v) (List.mem_cons_self _ _)
    have ih2 := ih (fun x hx => h x (List.mem_cons_of_mem _ hx))
    have hb : (name == k) = false := beq_eq_false_iff_ne.mpr (Ne.symm hk)
    simp [List.lookup, ih2, hb]

theorem dirChars_eq_none {cs : List Char} (h : ∀ c ∈ cs, c ≠ '/') :
    dirChars cs = none := by
  induction cs with
  | nil => rfl
  | cons c cs ih =>
    rw [dirChars, ih (fun x hx => h x (List.mem_cons_of_mem _ hx))]
    simp [h c (List.mem_cons_self c cs)]

/-! ### The claims -/

/-- C1: every line the Result Collector inserts into the ResultSet (and hence
every line of the final output file) is obtained from an ok outcome's output
by splitting on newline boundaries and trimming leading/trailing whitespace,
is non-empty after trimming, and contains the target domain string as a
case-sensitive literal substring; the line is kept exactly as stripped, so no
case or trailing-dot normalization is applied. -/
theorem C1_result_lines (env : Env) (domain s : String)
    (hs : s ∈ finalResults env domain) :
    ∃ r ∈ mainRuns env domain, r.1.status = Status.ok ∧
      ∃ out, r.1.output = some out ∧
        ∃ raw ∈ splitlines out, strip raw = s ∧ s ≠ "" ∧
          domain.data <:+: s.data := by
  obtain ⟨e, he, hm⟩ := mem_resultSet.mp hs
  obtain ⟨r, hr, hsnd⟩ := List.mem_filterMap.mp he
  obtain ⟨t, -, hrt⟩ := mem_mainRuns hr
  have hok : r.1.status = Status.ok ∧ r.1.output = some e.2 := by
    obtain ⟨o, q⟩ := r
    exact run_tool_snd_some hrt hsnd
  obtain ⟨hraw, hne, hinf⟩ := mem_matchingLines.mp hm
  obtain ⟨raw, hraw1, hraw2⟩ := hraw
  exact ⟨r, hr, hok.1, e.2, hok.2, raw, hraw1, hraw2, hne, hinf⟩

/-- C1 witness: with every tool available and succeeding with output line
`www.example.com`, the collected line traces back to an ok outcome's output. -/
theorem C1_witness :
    ∃ r ∈ mainRuns envAll "example.com", r.1.status = Status.ok ∧
      ∃ out, r.1.output = some out ∧
        ∃ raw ∈ splitlines out, strip raw = "www.example.com" ∧
          "www.example.com" ≠ "" ∧
          "example.com".data <:+: "www.example.com".data :=
  C1_result_lines envAll "example.com" "www.example.com" (by decide)

/-- C2: any two collected outputs both containing the identical trimmed
domain-matching line yield exactly one occurrence of that line in the final
sorted output, regardless of which tools produced it. -/
theorem C2_dedup (domain l : String) (entries : List (String × String))
    (a b : String × String) (ha : a ∈ entries) (hb : b ∈ entries)
    (hla : l ∈ matchingLines domain a.2) (hlb : l ∈ matchingLines domain b.2) :
    (sortedResults (resultSet domain entries)).count l = 1 := by
  have hmem : l ∈ sortedResults (resultSet domain entries) := by
    rw [sortedResults, Finset.mem_sort]
    exact mem_resultSet.mpr ⟨a, ha, hla⟩
  exact List.count_eq_one_of_mem (Finset.sort_nodup _ _) hmem

/-- C2 witness: the spec's scenario — domain `example.com`, two tools both
returning `www.example.com` — gives that line exactly once, and the final
file content is exactly one line `www.example.com`. -/
theorem C2_witness :
    (sortedResults (resultSet "example.com"
        [("t1", "www.example.com"), ("t2", "www.example.com")])).count
      "www.example.com" = 1 ∧
    fileContent (resultSet "example.com"
        [("t1", "www.example.com"), ("t2", "www.example.com")]) =
      "www.example.com\n" := by
  constructor
  · exact C2_dedup "example.com" "www.example.com" _ ("t1", "www.example.com")
      ("t2", "www.example.com") (by decide) (by decide) (by decide) (by decide)
  · have h : resultSet "example.com"
        [("t1", "www.example.com"), ("t2", "www.example.com")] =
        {"www.example.com"} := by decide
    rw [fileContent, sortedResults, h, Finset.sort_singleton]
    rfl

/-- C3: the Output Writer writes one line per unique result, each terminated
by a newline, in strict ascending lexicographic order with no blank lines,
overwriting any existing file at the destination path (the new content is
independent of the previous filesystem state, and other paths are
untouched). -/
theorem C3_writer (fs : String → Option String) (path domain : String)
    (entries : List (String × String)) (hdir : dirname path ≠ "") :
    ∃ fs2, write_output fs path (resultSet domain entries) = Except.ok fs2 ∧
      fs2 path = some (fileContent (resultSet domain entries)) ∧
      (∀ p, p ≠ path → fs2 p = fs p) ∧
      (sortedResults (resultSet domain entries)).Sorted (· < ·) ∧
      "" ∉ sortedResults (resultSet domain entries) ∧
      (∀ l, l ∈ sortedResults (resultSet domain entries) ↔
        l ∈ resultSet domain entries) ∧
      fileContent (resultSet domain entries) =
        String.join ((sortedResults (resultSet domain entries)).map
          (fun l => l ++ "\n")) := by
  have hw : write_output fs path (resultSet domain entries) =
      Except.ok (fun p => if p = path then
        some (fileContent (resultSet domain entries)) else fs p) := by
    unfold write_output os_makedirs
    rw [if_neg hdir]
  refine ⟨_, hw, by simp, ?_, ?_, ?_, ?_, rfl⟩
  · intro p hp
    simp [hp]
  · exact Finset.sort_sorted_lt _
  · intro hmem
    exact ne_empty_of_mem_resultSet ((Finset.mem_sort _).mp hmem) rfl
  · intro l
    exact Finset.mem_sort _

/-- C3 witness: writing a concrete result set to `results/out.txt` over an
empty filesystem. -/
theorem C3_witness :
    ∃ fs2, write_output (fun _ => none) "results/out.txt"
        (resultSet "example.com" [("t1", "www.example.com")]) = Except.ok fs2 ∧
      fs2 "results/out.txt" = some (fileContent (resultSet "example.com"
        [("t1", "www.example.com")])) ∧
      (∀ p, p ≠ "results/out.txt" → fs2 p = (fun _ => none) p) ∧
      (sortedResults (resultSet "example.com"
        [("t1", "www.example.com")])).Sorted (· < ·) ∧
      "" ∉ sortedResults (resultSet "example.com" [("t1", "www.example.com")]) ∧
      (∀ l, l ∈ sortedResults (resultSet "example.com"
          [("t1", "www.example.com")]) ↔
        l ∈ resultSet "example.com" [("t1", "www.example.com")]) ∧
      fileContent (resultSet "example.com" [("t1", "www.example.com")]) =
        String.join ((sortedResults (resultSet "example.com"
          [("t1", "www.example.com")])).map (fun l => l ++ "\n")) :=
  C3_writer (fun _ => none) "results/out.txt" "example.com"
    [("t1", "www.example.com")] (by decide)

/-- C4: task outcomes whose status is not ok contribute zero lines — their
queue entry is `none` and they retain no output (in particular a timed-out
outcome keeps no partial output); a not-found outcome is produced without
consulting the subprocess facility at all (any environment with the same
availability probe yields the identical outcome); and the final ResultSet
equals the ResultSet built from the ok runs alone. -/
theorem C4_non_ok (env : Env) (domain name cmd : String) (o : TaskOutcome)
    (q : Option (String × String)) (h : run_tool env name cmd = some (o, q)) :
    (o.status ≠ Status.ok → q = none ∧ o.output = none) ∧
    (o.status = Status.not_found → ∀ env2 : Env, env2.which = env.which →
      run_tool env2 name cmd = some (o, q)) ∧
    finalResults env domain =
      resultSet domain (queueEntries ((mainRuns env domain).filter
        (fun r => r.1.status == Status.ok))) := by
  obtain ⟨t, ts, htk, hc⟩ := run_tool_shape h
  refine ⟨?_, ?_, ?_⟩
  · intro hno
    rcases hc with ⟨-, he⟩ | ⟨-, out, -, he⟩ | ⟨-, -, he⟩ | ⟨-, msg, -, he⟩ <;>
      injection he with h1 h2 <;> subst h1 <;> simp_all
  · intro hnf env2 hw2
    rcases hc with ⟨hwf, he⟩ | ⟨hwt, out, hx, he⟩ | ⟨hwt, hx, he⟩ |
        ⟨hwt, msg, hx, he⟩ <;>
      injection he with h1 h2 <;> subst h1 <;> subst h2
    · rw [run_tool_of_tokens env2 name cmd t ts htk, hw2, if_pos hwf]
    · simp_all
    · simp_all
    · simp_all
  · rw [finalResults, queueEntries_filter_ok (mainRuns env domain) mainRuns_not_ok]

/-- C4 witness: in the environment where nothing resolves, the assetfinder
run is a not-found outcome with no queue entry, and the final set is the set
of the (empty) ok runs. -/
theorem C4_witness :
    (({ name := "assetfinder", status := Status.not_found, output := none,
        error_detail := none } : TaskOutcome).status ≠ Status.ok →
      (none : Option (String × String)) = none ∧
      ({ name := "assetfinder", status := Status.not_found, output := none,
         error_detail := none } : TaskOutcome).output = none) ∧
    (({ name := "assetfinder", status := Status.not_found, output := none,
        error_detail := none } : TaskOutcome).status = Status.not_found →
      ∀ env2 : Env, env2.which = envNone.which →
        run_tool env2 "assetfinder" "assetfinder --subs-only example.com" =
          some ({ name := "assetfinder", status := Status.not_found,
                  output := none, error_detail := none }, none)) ∧
    finalResults envNone "example.com" =
      resultSet "example.com" (queueEntries ((mainRuns envNone
        "example.com").filter (fun r => r.1.status == Status.ok))) :=
  C4_non_ok envNone "example.com" "assetfinder"
    "assetfinder --subs-only example.com"
    { name := "assetfinder", status := Status.not_found, output := none,
      error_detail := none } none (by decide)

/-- C5: for every invocation of the Task Runner on a registry ToolSpec (any
domain), exactly one TaskOutcome is produced, its status is one of ok /
not_found / timed_out / failed, and no uncaught failure escapes (the run is
`some`, never the `none` that models an escaping exception). -/
theorem C5_one_outcome (env : Env) (domain name cmd : String)
    (h : (name, cmd) ∈ all_tools domain) :
    ∃ o q, run_tool env name cmd = some (o, q) ∧ o.name = name ∧
      (o.status = Status.ok ∨ o.status = Status.not_found ∨
       o.status = Status.timed_out ∨ o.status = Status.failed) ∧
      ∀ o2 q2, run_tool env name cmd = some (o2, q2) → o2 = o ∧ q2 = q := by
  have htk := tokens_all_tools h
  rcases hne : tokens cmd with _ | ⟨t, ts⟩
  · exact absurd hne htk
  · rw [run_tool_of_tokens env name cmd t ts hne]
    by_cases hw : env.which t = false
    · rw [if_pos hw]
      refine ⟨_, _, rfl, rfl, Or.inr (Or.inl rfl), ?_⟩
      intro o2 q2 h2
      injection h2 with h3
      injection h3 with h4 h5
      exact ⟨h4.symm, h5.symm⟩
    · rw [if_neg hw]
      rcases hx : env.exec cmd with out | _ | msg
      · refine ⟨_, _, rfl, rfl, Or.inl rfl, ?_⟩
        intro o2 q2 h2
        injection h2 with h3
        injection h3 with h4 h5
        exact ⟨h4.symm, h5.symm⟩
      · refine ⟨_, _, rfl, rfl, Or.inr (Or.inr (Or.inl rfl)), ?_⟩
        intro o2 q2 h2
        injection h2 with h3
        injection h3 with h4 h5
        exact ⟨h4.symm, h5.symm⟩
      · refine ⟨_, _, rfl, rfl, Or.inr (Or.inr (Or.inr rfl)), ?_⟩
        intro o2 q2 h2
        injection h2 with h3
        injection h3 with h4 h5
        exact ⟨h4.symm, h5.symm⟩

/-- C5 witness: the assetfinder ToolSpec in the no-tools-installed
environment yields exactly one outcome. -/
theorem C5_witness :
    ∃ o q, run_tool envNone "assetfinder"
        "assetfinder --subs-only example.com" = some (o, q) ∧
      o.name = "assetfinder" ∧
      (o.status = Status.ok ∨ o.status = Status.not_found ∨
       o.status = Status.timed_out ∨ o.status = Status.failed) ∧
      ∀ o2 q2, run_tool envNone "assetfinder"
          "assetfinder --subs-only example.com" = some (o2, q2) →
        o2 = o ∧ q2 = q :=
  C5_one_outcome envNone "example.com" "assetfinder"
    "assetfinder --subs-only example.com" (by decide)

/-- C6: in every execution trace of the two-phase scheduler, no slow-phase
task starts before every fast-phase task has reached a terminal outcome:
whatever prefix precedes a slow-phase start event already contains a finish
event for every fast-phase tool. -/
theorem C6_phase_barrier (domain : String) (tr pre suf : List Ev) (n : String)
    (h : MainExec domain tr) (hd : tr = pre ++ Ev.start n :: suf)
    (hn : n ∈ slowNames domain) :
    ∀ m ∈ fastNames domain, Ev.finish m ∈ pre := by
  intro m hm
  obtain ⟨fe, se, hfe, hse, htr⟩ := h
  have hnot : Ev.start n ∉ fe := by
    intro hin
    exact fast_slow_disjoint hn (by simpa [evName] using hfe.own _ hin)
  have heq : fe ++ se = pre ++ Ev.start n :: suf := by rw [← htr, ← hd]
  rcases List.append_eq_append_iff.mp heq with ⟨a, ha1, ha2⟩ | ⟨c, hc1, hc2⟩
  · subst ha1
    exact List.mem_append_left _ (hfe.complete m hm)
  · cases c with
    | nil =>
      rw [List.append_nil] at hc1
      subst hc1
      exact hfe.complete m hm
    | cons x xs =>
      exfalso
      have hx : x = Ev.start n := by
        rw [List.cons_append] at hc2
        injection hc2 with hx1 hx2
        exact hx1.symm
      apply hnot
      rw [hc1, hx]
      exact List.mem_append_right _ (List.mem_cons_self _ _)

/-- C6 witness: in the trace where every fast tool finishes and then
`dnsrecon` starts, the prefix before the `dnsrecon` start contains the
finish of the fast tool `amass`. -/
theorem C6_witness : Ev.finish "amass" ∈ wTraceFast :=
  C6_phase_barrier "example.com" (wTraceFast ++ wTraceSlow) wTraceFast
    ((slowNames "example.com").map Ev.finish) "dnsrecon"
    ⟨wTraceFast, wTraceSlow, ⟨by decide, by decide⟩, ⟨by decide, by decide⟩,
      rfl⟩
    rfl (by decide) "amass" (by decide)

/-- C7: the ETA Estimator returns the integer sum of the per-tool estimates;
it is additive over concatenation, invariant under permutation of the tool
list, and defaults to 10 seconds for a tool absent from the estimate table. -/
theorem C7_estimator (phaseA phaseB phaseA2 : List (String × String))
    (hp : phaseA.Perm phaseA2) :
    estimate_total_time (phaseA ++ phaseB) =
      estimate_total_time phaseA + estimate_total_time phaseB ∧
    estimate_total_time phaseA = estimate_total_time phaseA2 ∧
    ∀ name cmd, (∀ p ∈ TOOL_ESTIMATES, p.1 ≠ name) →
      estimate_total_time [(name, cmd)] = 10 := by
  refine ⟨?_, ?_, ?_⟩
  · simp [estimate_total_time]
  · simp only [estimate_total_time]
    exact List.Perm.sum_eq (hp.map _)
  · intro name cmd hno
    simp [estimate_total_time, lookup_eq_none hno]

/-- C7 witness: the run's actual fast and slow phases, with the fast phase
also permuted by reversal. -/
theorem C7_witness :
    estimate_total_time (fast_phase "example.com" ++ slow_phase "example.com") =
      estimate_total_time (fast_phase "example.com") +
        estimate_total_time (slow_phase "example.com") ∧
    estimate_total_time (fast_phase "example.com") =
      estimate_total_time ((fast_phase "example.com").reverse) ∧
    ∀ name cmd, (∀ p ∈ TOOL_ESTIMATES, p.1 ≠ name) →
      estimate_total_time [(name, cmd)] = 10 :=
  C7_estimator (fast_phase "example.com") (slow_phase "example.com")
    ((fast_phase "example.com").reverse)
    (List.reverse_perm (fast_phase "example.com")).symm

/-- C8 as stated is false: the claim quantifies over every command string,
but on the empty command the first-token extraction `cmd.split()[0]` (line
54, outside the try block) raises an uncaught IndexError, modelled by the
gate and the runner both returning `none`. -/
theorem C8_counterexample :
    availability_gate envNone "" = none ∧
    run_tool envNone "assetfinder" "" = none :=
  ⟨rfl, rfl⟩

/-- C8 (amended): for every command string with at least one
whitespace-delimited token, the Availability Gate extracts the first token
and returns the boolean availability of that executable without failing;
when it returns false, the Task Runner produces a not_found outcome
immediately and performs no subprocess invocation (the result is identical
in any environment with the same availability probe, independent of the
subprocess facility). -/
theorem C8_gate (env : Env) (name cmd t : String) (ts : List String)
    (ht : tokens cmd = t :: ts) :
    availability_gate env cmd = some (env.which t) ∧
    (env.which t = false →
      run_tool env name cmd =
        some ({ name := name, status := Status.not_found, output := none,
                error_detail := none }, none) ∧
      ∀ env2 : Env, env2.which = env.which →
        run_tool env2 name cmd = run_tool env name cmd) := by
  refine ⟨?_, ?_⟩
  · unfold availability_gate
    rw [ht]
  · intro hw
    refine ⟨?_, ?_⟩
    · rw [run_tool_of_tokens env name cmd t ts ht, if_pos hw]
    · intro env2 hw2
      rw [run_tool_of_tokens env2 name cmd t ts ht,
        run_tool_of_tokens env name cmd t ts ht, hw2, if_pos hw, if_pos hw]

/-- C8 witness: the assetfinder command in the environment where nothing
resolves — the gate answers `false` and the runner skips without any
subprocess invocation. -/
theorem C8_witness :
    availability_gate envNone "assetfinder --subs-only example.com" =
      some (envNone.which "assetfinder") ∧
    (envNone.which "assetfinder" = false →
      run_tool envNone "assetfinder" "assetfinder --subs-only example.com" =
        some ({ name := "assetfinder", status := Status.not_found,
                output := none, error_detail := none }, none) ∧
      ∀ env2 : Env, env2.which = envNone.which →
        run_tool env2 "assetfinder" "assetfinder --subs-only example.com" =
          run_tool envNone "assetfinder"
            "assetfinder --subs-only example.com") :=
  C8_gate envNone "assetfinder" "assetfinder --subs-only example.com"
    "assetfinder" ["--subs-only", "example.com"] (by decide)

/-- C9: the final output is fully deterministic in the multiset of collected
outputs — any permutation of the collection order yields the identical
ResultSet and the identical file content. -/
theorem C9_deterministic (domain : String)
    (entries entries2 : List (String × String)) (hp : entries.Perm entries2) :
    resultSet domain entries = resultSet domain entries2 ∧
    fileContent (resultSet domain entries) =
      fileContent (resultSet domain entries2) := by
  have h : resultSet domain entries = resultSet domain entries2 := by
    rw [resultSet_eq_toFinset, resultSet_eq_toFinset]
    exact List.toFinset_eq_of_perm _ _ ((hp.map _).flatten)
  exact ⟨h, by rw [h]⟩

/-- C9 witness: two collection orders of the same two outputs give the same
set and the same file. -/
theorem C9_witness :
    resultSet "example.com"
        [("t1", "a.example.com"), ("t2", "b.example.com")] =
      resultSet "example.com"
        [("t2", "b.example.com"), ("t1", "a.example.com")] ∧
    fileContent (resultSet "example.com"
        [("t1", "a.example.com"), ("t2", "b.example.com")]) =
      fileContent (resultSet "example.com"
        [("t2", "b.example.com"), ("t1", "a.example.com")]) :=
  C9_deterministic "example.com"
    [("t1", "a.example.com"), ("t2", "b.example.com")]
    [("t2", "b.example.com"), ("t1", "a.example.com")] (by decide)

/-- C10 (implicit): when the output path has no directory component,
`os.path.dirname` yields the empty string, `os.makedirs("")` raises even
with `exist_ok=True`, and the run aborts before any file is written; for a
path whose directory component is non-empty the write step succeeds. -/
theorem C10_bare_path (fs : String → Option String) (path : String)
    (rs : Finset String) (h : ∀ c ∈ path.data, c ≠ '/') :
    dirname path = "" ∧
    write_output fs path rs = Except.error "FileNotFoundError" ∧
    (∀ path2, dirname path2 ≠ "" →
      write_output fs path2 rs =
        Except.ok (fun p => if p = path2 then some (fileContent rs)
          else fs p)) := by
  have hd : dirname path = "" := by
    rw [dirname, dirChars_eq_none h]
  refine ⟨hd, ?_, ?_⟩
  · unfold write_output
    rw [hd]
    rfl
  · intro path2 h2
    unfold write_output os_makedirs
    rw [if_neg h2]

/-- C10 witness: the bare filename `out.txt` aborts the write with
`FileNotFoundError`. -/
theorem C10_witness :
    dirname "out.txt" = "" ∧
    write_output (fun _ => none) "out.txt" (∅ : Finset String) =
      Except.error "FileNotFoundError" ∧
    (∀ path2, dirname path2 ≠ "" →
      write_output (fun _ => none) path2 (∅ : Finset String) =
        Except.ok (fun p => if p = path2 then some (fileContent ∅)
          else none)) :=
  C10_bare_path (fun _ => none) "out.txt" ∅ (by decide)

end SubEnum
